import Mathlib

/-!
Shallow embedding of the cerl client library (src/cerl/cerl.py and
src/cerl/utils.py) and proofs about its path resolver, singleton
extractor, query pager/aggregator and record-export URL construction.

Python values flowing through the library (parsed JSON) are modelled by
the inductive type PyVal below; Python dictionaries are association
lists with distinct string keys, and Python truthiness is made explicit.
Fallible code (raised exceptions) is modelled with Except.
-/

namespace Cerl

/-- Model of a Python value as produced by json parsing: None, int, str,
list, dict. Dictionaries are association lists of string keys. -/
inductive PyVal where
  | null
  | num (n : Int)
  | str (s : String)
  | arr (xs : List PyVal)
  | obj (kvs : List (String × PyVal))

/-- Python truthiness: None, 0, the empty string and empty containers are
falsy, everything else is truthy. -/
def PyVal.truthy : PyVal → Bool
  | .null => false
  | .num n => n != 0
  | .str s => s != ""
  | .arr xs => !xs.isEmpty
  | .obj kvs => !kvs.isEmpty

/-- Test for dictionaries and lists, the two container shapes that the
resolver in utils.py recurses into. -/
def PyVal.isContainer : PyVal → Bool
  | .obj _ => true
  | .arr _ => true
  | _ => false

/-- Python dict.get with default None is modelled by an Option-valued
lookup in the association list (keys are unique in a Python dict, so the
first match is the match). -/
def dictGet (kvs : List (String × PyVal)) (k : String) : Option PyVal :=
  (kvs.find? (fun p => p.1 == k)).map Prod.snd

/-! ### utils.py: _jump_list, by_dot, the -/

mutual

/-- Embedding of _jump_list (src/cerl/utils.py lines 7-30).
For a dict, dict.get(key, None) is taken and wrapped in a singleton list
when truthy, else the empty list is returned. For a list, the same key is
resolved against every element and the results are concatenated. For any
other value the Python function falls through and implicitly returns
None, modelled as .ok none. A raised exception is modelled as .error. -/
def jump_list (target : PyVal) (key : String) : Except Unit (Option (List PyVal)) :=
  match target with
  | .obj kvs =>
      let value := (dictGet kvs key).getD .null
      .ok (some (if value.truthy then [value] else []))
  | .arr items => (jump_arr items key).map some
  | _ => .ok none

/-- Loop body of the list branch of _jump_list: values.extend(value) for
each element. When the recursive call returns None (the element was
neither dict nor list), extend(None) raises a TypeError, modelled as
.error (); a raised error from the recursive call propagates. -/
def jump_arr (items : List PyVal) (key : String) : Except Unit (List PyVal) :=
  match items with
  | [] => .ok []
  | item :: rest =>
      match jump_list item key with
      | .error e => .error e
      | .ok none => .error ()
      | .ok (some vs) => (jump_arr rest key).map (fun r => vs ++ r)

end

/-- One step of by_dot (src/cerl/utils.py lines 56-60) over the working
set: for each branch, value = _jump_list(branch, step); a raised error
propagates; the test if value skips both None and the empty list, and a
non-empty list extends the new working set. Extending with the empty
list equals skipping it, so both truthy-test outcomes for a returned
list collapse into one append. -/
def by_dot_branches : List PyVal → String → Except Unit (List PyVal)
  | [], _ => .ok []
  | branch :: rest, step =>
      match jump_list branch step with
      | .error e => .error e
      | .ok none => by_dot_branches rest step
      | .ok (some vs) => (by_dot_branches rest step).map (fun r => vs ++ r)

/-- Python str.split with a dot separator: segments between dots, empty
segments kept, the empty string splitting to a single empty segment.
Auxiliary accumulator holds the current segment reversed. -/
def split_dot_chars : List Char → List Char → List String
  | [], acc => [String.mk acc.reverse]
  | c :: rest, acc =>
      if c = '.' then String.mk acc.reverse :: split_dot_chars rest []
      else split_dot_chars rest (c :: acc)

/-- Dot-splitting of a path string, as path.split with a dot argument in
by_dot. -/
def split_dot (s : String) : List String := split_dot_chars s.data []

/-- Embedding of by_dot (src/cerl/utils.py lines 32-61) on an explicit
list of steps: the working set starts as the singleton of the record and
each step is resolved against every branch of the working set. -/
def by_dot_steps (record : PyVal) (steps : List String) : Except Unit (List PyVal) :=
  steps.foldlM by_dot_branches [record]

/-- Embedding of by_dot on a dot-separated path string. -/
def by_dot (record : PyVal) (path : String) : Except Unit (List PyVal) :=
  by_dot_steps record (split_dot path)

/-- Kinds of cardinality failure raised by the function the in
src/cerl/utils.py: the two ValueError messages distinguish the empty
list from a list with more than one element. -/
inductive CardinalityError where
  | emptyList
  | multipleElements

/-- Embedding of the (src/cerl/utils.py lines 63-86): a zero-length list
raises the is-empty ValueError, a length other than one raises the
more-than-one-element ValueError, otherwise the single element l[0] is
returned. -/
def the {α : Type} : List α → Except CardinalityError α
  | [] => .error .emptyList
  | [x] => .ok x
  | _ :: _ :: _ => .error .multipleElements

/-! ### cerl.py: URL construction for record fetch and export -/

/-- Uppercase hexadecimal digit, as used by urllib.parse.quote. -/
def hex_digit (n : Nat) : Char :=
  if n < 10 then Char.ofNat (48 + n) else Char.ofNat (55 + n)

/-- UTF-8 encoding of one character as its list of byte values. -/
def utf8_bytes (c : Char) : List Nat :=
  let n := c.toNat
  if n < 128 then [n]
  else if n < 2048 then [192 + n / 64, 128 + n % 64]
  else if n < 65536 then [224 + n / 4096, 128 + (n / 64) % 64, 128 + n % 64]
  else [240 + n / 262144, 128 + (n / 4096) % 64, 128 + (n / 64) % 64, 128 + n % 64]

/-- Characters urllib.parse.quote leaves unescaped with its default safe
argument: ASCII alphanumerics, underscore, dot, dash, tilde, and the
slash from the default safe string. -/
def quote_unreserved (c : Char) : Bool :=
  c.isAlphanum || c == '_' || c == '.' || c == '-' || c == '~' || c == '/'

/-- Percent-encoding of a single character, urllib.parse.quote style:
unreserved ASCII characters pass through, every other character has each
of its UTF-8 bytes written as a percent sign and two uppercase hex
digits. -/
def quote_char (c : Char) : String :=
  if quote_unreserved c then String.singleton c
  else String.join ((utf8_bytes c).map (fun b => String.mk ['%', hex_digit (b / 16), hex_digit (b % 16)]))

/-- Embedding of urllib.parse.quote with the default safe argument, as
applied to identifiers and queries in src/cerl/cerl.py. -/
def quote (s : String) : String := String.join (s.data.map quote_char)

/-- Interpolation of the style argument into the f-string of
_ample_record_request: Python renders None as the four characters None,
it does not drop the parameter. -/
def py_str_opt : Option String → String
  | none => "None"
  | some s => s

/-- URL built by _ample_record_request (src/cerl/cerl.py line 166):
https, host, slash, quoted identifier, then the format and style query
parameters; the style parameter is always present in the f-string. -/
def ample_record_request_url (host idx form : String) (style : Option String) : String :=
  "https://" ++ host ++ "/" ++ quote idx ++ ("?format=" ++ form ++ "&style=" ++ py_str_opt style)

/-- Export-format table of ample_record_export (src/cerl/cerl.py lines
194-200): a five-entry dict literal consulted with .get and the default
pair json with no style. The dict literal has distinct keys, so it is
modelled by chained comparisons in key order. -/
def export_table (sel : String) : String × Option String :=
  if sel = "rdf/ttl" then ("txt", some "ttl")
  else if sel = "yaml" then ("txt", none)
  else if sel = "rdf/xml" then ("rdfxml", none)
  else if sel = "rdf/jsonld" then ("json", some "jsonld")
  else if sel = "unimarc" then ("txt", some "internal")
  else ("json", none)

/-- URL issued by ample_record_export (src/cerl/cerl.py lines 169-201):
the selector is resolved through the export table and passed to
_ample_record_request. -/
def ample_record_export_url (host idx sel : String) : String :=
  let fs := export_table sel
  ample_record_request_url host idx fs.1 fs.2

/-! ### cerl.py: query paging and aggregation -/

/-- Row of a query result: one of the dictionaries in the rows field of
a page response. -/
abbrev Row := List (String × PyVal)

/-- Embedding of the QueryResult dataclass (src/cerl/cerl.py lines
39-51). -/
structure QueryResult where
  hits : Nat
  rows : List Row

/-- Parsing performed by ample_query_hits (src/cerl/cerl.py lines
71-77) on the decoded JSON response: the subscript j of the hits key
raises on a response that is not a dict or lacks the key; a dict-shaped
hits field is replaced by its value sub-field with default 0; any other
shape is returned as is (the bare-integer shape in particular). -/
def ample_query_hits_of_json (j : PyVal) : Except Unit PyVal :=
  match j with
  | .obj kvs =>
      match dictGet kvs "hits" with
      | none => .error ()
      | some hitsField =>
          match hitsField with
          | .obj hkvs => .ok ((dictGet hkvs "value").getD (.num 0))
          | other => .ok other
  | _ => .error ()

/-- Page loop of ample_query_generator (src/cerl/cerl.py lines 99-105):
while offset < hits and offset < 10000, request the page at the current
offset and advance by the fixed stride 100. The transport argument gives
the rows list the service returns for a given from-offset. Each produced
pair records the from-offset of an issued page request and the rows
received for it. The loop is indexed by fuel for structural recursion:
the condition offset < 10000 with stride 100 admits at most 100
iterations from offset 0, so the initial fuel 101 never runs out. -/
def gen_loop (hits : Nat) (transport : Nat → List Row) (offset : Nat) : Nat → List (Nat × List Row)
  | 0 => []
  | fuel + 1 =>
      if offset < hits ∧ offset < 10000 then
        (offset, transport offset) :: gen_loop hits transport (offset + 100) fuel
      else []

/-- Offset-and-rows pairs produced by driving ample_query_generator past
its first yield, starting at offset 0. -/
def ample_query_pages (hits : Nat) (transport : Nat → List Row) : List (Nat × List Row) :=
  gen_loop hits transport 0 101

/-- From-offsets of the page requests the generator issues. -/
def ample_query_page_offsets (hits : Nat) (transport : Nat → List Row) : List Nat :=
  (ample_query_pages hits transport).map Prod.fst

/-- Embedding of ample_query (src/cerl/cerl.py lines 107-128): the first
generator value is the hit count; when it is truthy the generator is
drained and the page row lists are concatenated by sum, otherwise rows
is the empty list. -/
def ample_query (hits : Nat) (transport : Nat → List Row) : QueryResult :=
  if hits ≠ 0 then
    { hits := hits, rows := ((ample_query_pages hits transport).map Prod.snd).flatten }
  else
    { hits := hits, rows := [] }

/-- Number of HTTP GET calls ample_query performs: one hit-count request
issued by the first generator step, plus one request per page when the
hit count is truthy (a falsy hit count short-circuits and the generator
is never driven past its first yield). -/
def ample_query_call_count (hits : Nat) (transport : Nat → List Row) : Nat :=
  1 + (if hits ≠ 0 then (ample_query_pages hits transport).length else 0)

/-- Embedding of ids_from_result (src/cerl/cerl.py lines 130-143):
row.get of the id key with default None, for each row in order. -/
def ids_from_result (result : QueryResult) : List PyVal :=
  result.rows.map (fun row => (dictGet row "id").getD .null)

mutual

/-- Property that every element of every sequence inside a value is
itself a mapping or a sequence: no scalar sits directly inside a list.
This is the side condition under which the resolver never raises. -/
def seq_elems_containers : PyVal → Bool
  | .obj kvs => dict_vals_containers kvs
  | .arr xs => arr_elems_containers xs
  | _ => true

/-- Dictionary-values part of seq_elems_containers. -/
def dict_vals_containers : List (String × PyVal) → Bool
  | [] => true
  | kv :: rest => seq_elems_containers kv.2 && dict_vals_containers rest

/-- List-elements part of seq_elems_containers: every element of a
sequence is a container and recursively satisfies the property. -/
def arr_elems_containers : List PyVal → Bool
  | [] => true
  | x :: rest => (x.isContainer && seq_elems_containers x) && arr_elems_containers rest

end

/-! ### Theorems -/

/-- Claim C5, confirmed: for a zero (falsy) reported hit count the
aggregator returns the query result with zero hits and empty rows, and
exactly one transport call, the initial hit-count request, is made. -/
theorem ample_query_zero_hits (transport : Nat → List Row) :
    ample_query 0 transport = { hits := 0, rows := [] } ∧
    ample_query_call_count 0 transport = 1 :=
  ⟨rfl, rfl⟩

/-- Claim C9, confirmed: the singleton extractor returns the unique
element of a one-element list, fails with the empty-list cardinality
error on the empty list, and fails with the multiple-elements
cardinality error on every list of two or more elements; the two
failure diagnostics are distinct constructors. -/
theorem the_cardinality {α : Type} (l : List α) :
    (∀ x, l = [x] → the l = .ok x) ∧
    (l = [] → the l = .error .emptyList) ∧
    (2 ≤ l.length → the l = .error .multipleElements) := by
  refine ⟨?_, ?_, ?_⟩
  · rintro x rfl
    rfl
  · rintro rfl
    rfl
  · intro h
    cases l with
    | nil => simp at h
    | cons a t =>
      cases t with
      | nil => simp at h
      | cons b u => rfl

/-- Witness for the_cardinality at concrete lists. -/
theorem the_cardinality_witness :
    the ([] : List Nat) = .error .emptyList ∧
    the [5] = .ok 5 ∧
    the [1, 2] = .error .multipleElements :=
  ⟨(the_cardinality ([] : List Nat)).2.1 rfl,
   (the_cardinality [5]).1 5 rfl,
   (the_cardinality [1, 2]).2.2 (by decide)⟩

/-- Claim C6, confirmed: the hit-count parser accepts both upstream
shapes of the hits field; a bare integer is returned unchanged, and a
dict-shaped hits field yields its value sub-field, defaulting to 0 when
that sub-field is absent. -/
theorem ample_query_hits_shapes (kvs : List (String × PyVal)) :
    (∀ n : Int, dictGet kvs "hits" = some (.num n) →
      ample_query_hits_of_json (.obj kvs) = .ok (.num n)) ∧
    (∀ hkvs v, dictGet kvs "hits" = some (.obj hkvs) → dictGet hkvs "value" = some v →
      ample_query_hits_of_json (.obj kvs) = .ok v) ∧
    (∀ hkvs, dictGet kvs "hits" = some (.obj hkvs) → dictGet hkvs "value" = none →
      ample_query_hits_of_json (.obj kvs) = .ok (.num 0)) := by
  refine ⟨?_, ?_, ?_⟩
  · intro n h
    simp [ample_query_hits_of_json, h]
  · intro hkvs v h hv
    simp [ample_query_hits_of_json, h, hv]
  · intro hkvs h hv
    simp [ample_query_hits_of_json, h, hv]

/-- Witness for ample_query_hits_shapes on a response whose hits field
is a bare integer. -/
theorem ample_query_hits_shapes_witness :
    dictGet [("hits", PyVal.num 5)] "hits" = some (.num 5) ∧
    ample_query_hits_of_json (.obj [("hits", PyVal.num 5)]) = .ok (.num 5) :=
  ⟨rfl, (ample_query_hits_shapes [("hits", PyVal.num 5)]).1 5 rfl⟩

/-- Claim C7, confirmed: against a mapping node, the single-step path
holding just the key K resolves to the singleton of the value at K when
that value is truthy, and to the empty list when K is absent or its
value is falsy. -/
theorem by_dot_single_step_on_mapping (kvs : List (String × PyVal)) (K : String) :
    (∀ v, dictGet kvs K = some v → v.truthy = true →
      by_dot_steps (.obj kvs) [K] = .ok [v]) ∧
    (dictGet kvs K = none → by_dot_steps (.obj kvs) [K] = .ok []) ∧
    (∀ v, dictGet kvs K = some v → v.truthy = false →
      by_dot_steps (.obj kvs) [K] = .ok []) := by
  refine ⟨?_, ?_, ?_⟩
  · intro v h ht
    simp [by_dot_steps, List.foldlM, by_dot_branches, jump_list, h, ht, Except.map]
  · intro h
    simp [by_dot_steps, List.foldlM, by_dot_branches, jump_list, h, PyVal.truthy, Except.map]
  · intro v h ht
    simp [by_dot_steps, List.foldlM, by_dot_branches, jump_list, h, ht, Except.map]

/-- Witness for by_dot_single_step_on_mapping: a key with a truthy
value resolves to the singleton of that value, and a key mapped to the
falsy value 0 resolves to the empty list. -/
theorem by_dot_single_step_on_mapping_witness :
    dictGet [("k", PyVal.num 7)] "k" = some (.num 7) ∧
    by_dot_steps (.obj [("k", PyVal.num 7)]) ["k"] = .ok [.num 7] ∧
    by_dot_steps (.obj [("z", PyVal.num 0)]) ["z"] = .ok [] :=
  ⟨rfl,
   (by_dot_single_step_on_mapping [("k", PyVal.num 7)] "k").1 (.num 7) rfl rfl,
   (by_dot_single_step_on_mapping [("z", PyVal.num 0)] "z").2.2 (.num 0) rfl rfl⟩

/-- Lookup of a selector outside the five-entry export table yields the
default pair: format json, no style. -/
theorem export_table_unknown (sel : String)
    (h1 : sel ≠ "rdf/ttl") (h2 : sel ≠ "yaml") (h3 : sel ≠ "rdf/xml")
    (h4 : sel ≠ "rdf/jsonld") (h5 : sel ≠ "unimarc") :
    export_table sel = ("json", none) := by
  unfold export_table
  rw [if_neg h1, if_neg h2, if_neg h3, if_neg h4, if_neg h5]

/-- Claim C1, corrected: the selector rdf/ttl issues a GET whose query
string carries format=txt and style=ttl, and a selector outside the
five-entry export table falls back to format=json; however the style
parameter is not omitted for the fallback: the f-string interpolates the
Python value None, so the URL carries the literal text style=None. -/
theorem ample_record_export_url_spec (host idx sel : String)
    (h1 : sel ≠ "rdf/ttl") (h2 : sel ≠ "yaml") (h3 : sel ≠ "rdf/xml")
    (h4 : sel ≠ "rdf/jsonld") (h5 : sel ≠ "unimarc") :
    ample_record_export_url host idx "rdf/ttl" =
      "https://" ++ host ++ "/" ++ quote idx ++ "?format=txt&style=ttl" ∧
    ample_record_export_url host idx sel =
      "https://" ++ host ++ "/" ++ quote idx ++ "?format=json&style=None" := by
  constructor
  · rfl
  · unfold ample_record_export_url
    rw [export_table_unknown sel h1 h2 h3 h4 h5]
    rfl

/-- Witness for ample_record_export_url_spec at the selector bogus. -/
theorem ample_record_export_url_spec_witness :
    ample_record_export_url "h" "id1" "rdf/ttl" =
      "https://" ++ "h" ++ "/" ++ quote "id1" ++ "?format=txt&style=ttl" ∧
    ample_record_export_url "h" "id1" "bogus" =
      "https://" ++ "h" ++ "/" ++ quote "id1" ++ "?format=json&style=None" :=
  ample_record_export_url_spec "h" "id1" "bogus"
    (by decide) (by decide) (by decide) (by decide) (by decide)

/-- Counterexample for claim C1 as stated: for the unknown selector
bogus the issued URL is not the style-free URL the claim predicts; the
style parameter is present with the placeholder text None. -/
theorem ample_record_export_url_bogus_style :
    ample_record_export_url "h" "id1" "bogus" ≠ "https://h/id1?format=json" ∧
    ample_record_export_url "h" "id1" "bogus" = "https://h/id1?format=json&style=None" :=
  ⟨by decide, rfl⟩

/-- Every from-offset recorded by the page loop satisfies the loop
condition, lies at or above the starting offset, and is congruent to the
starting offset modulo the stride 100. -/
theorem gen_loop_offsets (hits : Nat) (transport : Nat → List Row) :
    ∀ (fuel offset o : Nat), o ∈ (gen_loop hits transport offset fuel).map Prod.fst →
      offset ≤ o ∧ o < hits ∧ o < 10000 ∧ o % 100 = offset % 100 := by
  intro fuel
  induction fuel with
  | zero =>
    intro offset o h
    simp [gen_loop] at h
  | succ n ih =>
    intro offset o h
    by_cases hc : offset < hits ∧ offset < 10000
    · rw [gen_loop, if_pos hc] at h
      simp only [List.map_cons, List.mem_cons] at h
      rcases h with rfl | h
      · exact ⟨Nat.le_refl o, hc.1, hc.2, rfl⟩
      · rcases ih (offset + 100) o h with ⟨hle, hh, hten, hmod⟩
        refine ⟨by omega, hh, hten, ?_⟩
        rw [hmod]
        omega
    · rw [gen_loop, if_neg hc] at h
      simp at h

/-- Claim C4, confirmed: a page request is issued only while its
from-offset is below the hit count and below the 10000 ceiling, and
since offsets are the multiples of 100 this makes every issued
from-offset at most 9900. -/
theorem ample_query_offsets_below_ceiling (hits : Nat) (transport : Nat → List Row)
    (o : Nat) (h : o ∈ ample_query_page_offsets hits transport) :
    o < hits ∧ o < 10000 ∧ o ≤ 9900 := by
  rcases gen_loop_offsets hits transport 101 0 o h with ⟨-, hh, hten, hmod⟩
  exact ⟨hh, hten, by omega⟩

/-- Witness for ample_query_offsets_below_ceiling: with hit count 12000
the offset 9900 is among the issued from-offsets and every bound holds
there. -/
theorem ample_query_offsets_below_ceiling_witness :
    9900 ∈ ample_query_page_offsets 12000 (fun _ => ([] : List Row)) ∧
    (9900 < 12000 ∧ 9900 < 10000 ∧ 9900 ≤ 9900) :=
  ⟨by decide,
   ample_query_offsets_below_ceiling 12000 (fun _ => ([] : List Row)) 9900 (by decide)⟩

/-- Length of the page list produced by the loop, given enough fuel: one
page per started stride of 100 between the starting offset and the
effective ceiling, the smaller of the hit count and 10000. -/
theorem gen_loop_length (hits : Nat) (transport : Nat → List Row) :
    ∀ (fuel offset : Nat), min hits 10000 ≤ offset + 100 * fuel →
      (gen_loop hits transport offset fuel).length = (min hits 10000 - offset + 99) / 100 := by
  intro fuel
  induction fuel with
  | zero =>
    intro offset hfuel
    simp only [gen_loop, List.length_nil]
    omega
  | succ n ih =>
    intro offset hfuel
    by_cases hc : offset < hits ∧ offset < 10000
    · rw [gen_loop, if_pos hc]
      rw [List.length_cons, ih (offset + 100) (by omega)]
      have hlt : offset < min hits 10000 := by omega
      omega
    · rw [gen_loop, if_neg hc]
      simp only [List.length_nil]
      omega

/-- Every page the loop records carries the rows the transport returned
for its offset, so a transport bound on page sizes bounds every recorded
page. -/
theorem gen_loop_pages_bounded (hits : Nat) (transport : Nat → List Row)
    (hb : ∀ k, (transport k).length ≤ 100) :
    ∀ (fuel offset : Nat), ∀ p ∈ gen_loop hits transport offset fuel, p.2.length ≤ 100 := by
  intro fuel
  induction fuel with
  | zero =>
    intro offset p hp
    simp [gen_loop] at hp
  | succ n ih =>
    intro offset p hp
    by_cases hc : offset < hits ∧ offset < 10000
    · rw [gen_loop, if_pos hc] at hp
      rcases List.mem_cons.mp hp with rfl | hp
      · exact hb offset
      · exact ih (offset + 100) p hp
    · rw [gen_loop, if_neg hc] at hp
      simp at hp

/-- Flattening a list of pages whose row lists are each at most 100 long
yields at most 100 rows per page. -/
theorem pages_flatten_length_le (l : List (Nat × List Row))
    (h : ∀ p ∈ l, p.2.length ≤ 100) :
    ((l.map Prod.snd).flatten).length ≤ 100 * l.length := by
  induction l with
  | nil => simp
  | cons p rest ih =>
    simp only [List.map_cons, List.flatten_cons, List.length_append, List.length_cons]
    have h1 : p.2.length ≤ 100 := h p (List.mem_cons_self p rest)
    have h2 := ih (fun q hq => h q (List.mem_cons_of_mem p hq))
    omega

/-- Claim C3, corrected: over transport responses whose pages each carry
at most 100 rows (the requested page size), the assembled row count is
at most one full stride per started page, hence at most the smaller of
10000 and the hit count rounded up to the next multiple of 100; the hits
field always equals the upstream-reported total. The stronger bound of
the claim, rows never exceeding min of hit count and 10000, fails: the
aggregator never truncates, so full final pages overshoot a hit count
that is not a multiple of 100 (see the counterexample). -/
theorem ample_query_rows_bound (hits : Nat) (transport : Nat → List Row)
    (hb : ∀ k, (transport k).length ≤ 100) :
    (ample_query hits transport).hits = hits ∧
    (ample_query hits transport).rows.length ≤ 100 * ((min hits 10000 + 99) / 100) ∧
    (ample_query hits transport).rows.length ≤ 10000 := by
  have hpages : (ample_query_pages hits transport).length = (min hits 10000 + 99) / 100 := by
    have := gen_loop_length hits transport 101 0 (by omega)
    simpa [ample_query_pages] using this
  have hrowsle :
      ((ample_query_pages hits transport).map Prod.snd).flatten.length ≤
        100 * ((min hits 10000 + 99) / 100) := by
    have hbound := pages_flatten_length_le (ample_query_pages hits transport)
      (gen_loop_pages_bounded hits transport hb 101 0)
    rw [hpages] at hbound
    exact hbound
  unfold ample_query
  by_cases hz : hits ≠ 0
  · rw [if_pos hz]
    refine ⟨rfl, hrowsle, ?_⟩
    show ((ample_query_pages hits transport).map Prod.snd).flatten.length ≤ 10000
    have h10 : 100 * ((min hits 10000 + 99) / 100) ≤ 10000 := by omega
    omega
  · rw [if_neg hz]
    exact ⟨rfl, by simp, by simp⟩

/-- Witness for ample_query_rows_bound: hit count 250 with three full
pages of 100 rows each gives 300 assembled rows, within the corrected
bound of 300. -/
theorem ample_query_rows_bound_witness :
    (∀ k : Nat, ((fun _ : Nat => List.replicate 100 ([] : Row)) k).length ≤ 100) ∧
    (ample_query 250 (fun _ : Nat => List.replicate 100 ([] : Row))).rows.length ≤
      100 * ((min 250 10000 + 99) / 100) :=
  ⟨fun _ => by simp,
   (ample_query_rows_bound 250 (fun _ : Nat => List.replicate 100 ([] : Row))
     (fun _ => by simp)).2.1⟩

set_option maxRecDepth 8000 in
/-- Counterexample for claim C3 as stated: with an upstream-reported hit
count of 250 and a transport returning a full page of 100 rows at every
offset, the aggregator assembles 300 rows, exceeding the smaller of the
hit count and 10000; the invariant of the claim fails. -/
theorem ample_query_rows_can_exceed_min :
    ¬ ((ample_query 250 (fun _ : Nat => List.replicate 100 ([] : Row))).rows.length ≤
        min (ample_query 250 (fun _ : Nat => List.replicate 100 ([] : Row))).hits 10000) := by
  decide

/-- Claim C10, confirmed: identifier extraction returns one entry per
row, in order; the entry for a row is the value of its id key, and the
Python None (modelled as null) for a row lacking the id key. -/
theorem ids_from_result_spec (result : QueryResult) (i : Nat)
    (h : i < result.rows.length) :
    (ids_from_result result).length = result.rows.length ∧
    (∀ v, dictGet result.rows[i] "id" = some v →
      (ids_from_result result)[i]? = some v) ∧
    (dictGet result.rows[i] "id" = none →
      (ids_from_result result)[i]? = some PyVal.null) := by
  refine ⟨by simp [ids_from_result], ?_, ?_⟩
  · intro v hv
    simp [ids_from_result, List.getElem?_map, List.getElem?_eq_getElem h, hv]
  · intro hv
    simp [ids_from_result, List.getElem?_map, List.getElem?_eq_getElem h, hv]

/-- Witness for ids_from_result_spec: a two-row result in which the
first row carries an id and the second does not. -/
theorem ids_from_result_spec_witness :
    (0 : Nat) < (QueryResult.mk 2 [[("id", PyVal.str "a")], [("x", PyVal.num 1)]]).rows.length ∧
    (ids_from_result (QueryResult.mk 2 [[("id", PyVal.str "a")], [("x", PyVal.num 1)]]))[0]? =
      some (PyVal.str "a") :=
  ⟨by decide,
   (ids_from_result_spec (QueryResult.mk 2 [[("id", PyVal.str "a")], [("x", PyVal.num 1)]])
     0 (by decide)).2.1 (PyVal.str "a") rfl⟩

/-- Unfolding of the dictionary lookup over a cons cell. -/
theorem dictGet_cons (kv : String × PyVal) (rest : List (String × PyVal)) (k : String) :
    dictGet (kv :: rest) k = if kv.1 == k then some kv.2 else dictGet rest k := by
  by_cases hkey : (kv.1 == k) = true
  · simp [dictGet, List.find?, hkey]
  · simp [dictGet, List.find?, hkey]

/-- Values looked up in a dictionary whose values are all
container-clean are container-clean as well. -/
theorem dictGet_containers (kvs : List (String × PyVal)) (k : String) (v : PyVal)
    (hk : dict_vals_containers kvs = true) (hv : dictGet kvs k = some v) :
    seq_elems_containers v = true := by
  induction kvs with
  | nil => simp [dictGet] at hv
  | cons kv rest ih =>
    rw [dict_vals_containers, Bool.and_eq_true] at hk
    rw [dictGet_cons] at hv
    by_cases hkey : (kv.1 == k) = true
    · rw [if_pos hkey] at hv
      cases hv
      exact hk.1
    · rw [if_neg hkey] at hv
      exact ih hk.2 hv

mutual

/-- Resolving one key against a container-clean value never raises, the
values it produces are container-clean, and a container value always
produces a proper list (never the implicit None of the scalar case). -/
theorem jump_list_ok_of_containers (t : PyVal) (k : String)
    (ht : seq_elems_containers t = true) :
    ∃ r, jump_list t k = .ok r ∧
      (∀ v ∈ r.getD [], seq_elems_containers v = true) ∧
      (t.isContainer = true → r ≠ none) := by
  cases t with
  | obj kvs =>
    rw [seq_elems_containers] at ht
    refine ⟨some (if ((dictGet kvs k).getD .null).truthy
        then [(dictGet kvs k).getD .null] else []), rfl, ?_, fun _ => by simp⟩
    intro v hv
    cases hd : dictGet kvs k with
    | none => simp [hd, PyVal.truthy] at hv
    | some w =>
      by_cases htr : w.truthy = true
      · simp [hd, htr] at hv
        exact hv ▸ dictGet_containers kvs k w ht hd
      · simp [hd, htr] at hv
  | arr xs =>
    rw [seq_elems_containers] at ht
    rcases jump_arr_ok_of_containers xs k ht with ⟨vs, hjs, hvals⟩
    refine ⟨some vs, ?_, ?_, fun _ => by simp⟩
    · simp [jump_list, hjs, Except.map]
    · simpa using hvals
  | null => exact ⟨none, rfl, by simp, fun hc => by simp [PyVal.isContainer] at hc⟩
  | num n => exact ⟨none, rfl, by simp, fun hc => by simp [PyVal.isContainer] at hc⟩
  | str s => exact ⟨none, rfl, by simp, fun hc => by simp [PyVal.isContainer] at hc⟩

/-- Resolving one key against a list of container-clean containers never
raises and produces container-clean values. -/
theorem jump_arr_ok_of_containers (xs : List PyVal) (k : String)
    (hx : arr_elems_containers xs = true) :
    ∃ vs, jump_arr xs k = .ok vs ∧ ∀ v ∈ vs, seq_elems_containers v = true := by
  cases xs with
  | nil => exact ⟨[], rfl, by simp⟩
  | cons x rest =>
    rw [arr_elems_containers, Bool.and_eq_true, Bool.and_eq_true] at hx
    rcases jump_list_ok_of_containers x k hx.1.2 with ⟨r, hr1, hr2, hr3⟩
    cases r with
    | none => exact absurd rfl (hr3 hx.1.1)
    | some vs =>
      rcases jump_arr_ok_of_containers rest k hx.2 with ⟨rs, hrs1, hrs2⟩
      refine ⟨vs ++ rs, ?_, ?_⟩
      · simp [jump_arr, hr1, hrs1, Except.map]
      · intro v hv
        rcases List.mem_append.mp hv with h | h
        · exact hr2 v (by simpa using h)
        · exact hrs2 v h

end

/-- One resolution step over a working set of container-clean values
neither raises nor produces values outside the property. -/
theorem by_dot_branches_ok_of_containers (cur : List PyVal) (step : String)
    (hc : ∀ b ∈ cur, seq_elems_containers b = true) :
    ∃ l, by_dot_branches cur step = .ok l ∧ ∀ v ∈ l, seq_elems_containers v = true := by
  induction cur with
  | nil => exact ⟨[], rfl, by simp⟩
  | cons b rest ih =>
    rcases jump_list_ok_of_containers b step (hc b (List.mem_cons_self b rest)) with
      ⟨r, hr1, hr2, -⟩
    rcases ih (fun q hq => hc q (List.mem_cons_of_mem b hq)) with ⟨l, hl1, hl2⟩
    cases r with
    | none => exact ⟨l, by simp [by_dot_branches, hr1, hl1], hl2⟩
    | some vs =>
      refine ⟨vs ++ l, by simp [by_dot_branches, hr1, hl1, Except.map], ?_⟩
      intro v hv
      rcases List.mem_append.mp hv with h | h
      · exact hr2 v (by simpa using h)
      · exact hl2 v h

/-- Folding any list of steps over a container-clean working set stays
error-free. -/
theorem by_dot_steps_fold_ok (steps : List String) :
    ∀ (cur : List PyVal), (∀ b ∈ cur, seq_elems_containers b = true) →
      ∃ l, List.foldlM by_dot_branches cur steps = .ok l := by
  induction steps with
  | nil =>
    intro cur hc
    exact ⟨cur, rfl⟩
  | cons s rest ih =>
    intro cur hc
    rcases by_dot_branches_ok_of_containers cur s hc with ⟨l, hl1, hl2⟩
    rcases ih l hl2 with ⟨l2, hl21⟩
    refine ⟨l2, ?_⟩
    rw [List.foldlM_cons, hl1]
    exact hl21

/-- Claim C2, corrected: path resolution never raises and returns a
possibly empty list provided every sequence inside the structure holds
only mappings and sequences; unmatched branches (a missing key, a falsy
value, a scalar node in the working set) silently drop out, but a scalar
element directly inside a sequence raises a type error instead of being
dropped (see the counterexample). -/
theorem by_dot_total_on_container_elems (record : PyVal) (path : String)
    (h : seq_elems_containers record = true) :
    ∃ l, by_dot record path = .ok l := by
  rcases by_dot_steps_fold_ok (split_dot path) [record]
    (fun b hb => by rw [List.mem_singleton] at hb; exact hb ▸ h) with ⟨l, hl⟩
  exact ⟨l, hl⟩

/-- Witness for by_dot_total_on_container_elems on a record whose
sequence holds only a mapping. -/
theorem by_dot_total_on_container_elems_witness :
    seq_elems_containers (.obj [("a", .arr [.obj [("b", PyVal.num 1)]])]) = true ∧
    ∃ l, by_dot (.obj [("a", .arr [.obj [("b", PyVal.num 1)]])]) "a.b" = .ok l :=
  ⟨rfl, by_dot_total_on_container_elems (.obj [("a", .arr [.obj [("b", PyVal.num 1)]])]) "a.b" rfl⟩

/-- Counterexample for claim C2 as stated: resolving the path a.b
against the mapping binding key a to a sequence holding the scalar 1
raises (the implicit None returned for the scalar makes extend raise a
TypeError inside the list branch), instead of silently dropping the
scalar branch and returning a list. -/
theorem by_dot_scalar_in_seq_raises :
    by_dot (.obj [("a", .arr [PyVal.num 1])]) "a.b" = .error () := rfl

/-- Resolution of a single key against a list of mappings all carrying a
truthy value at that key: the singleton matches concatenate in list
order. -/
theorem jump_arr_on_mappings (K : String) :
    ∀ (ms : List (List (String × PyVal))),
      (∀ m ∈ ms, ∃ v, dictGet m K = some v ∧ v.truthy = true) →
      jump_arr (ms.map PyVal.obj) K = .ok (ms.map (fun m => (dictGet m K).getD .null)) := by
  intro ms
  induction ms with
  | nil =>
    intro h
    rfl
  | cons m rest ih =>
    intro h
    rcases h m (List.mem_cons_self m rest) with ⟨v, hv, ht⟩
    have hrest := ih (fun q hq => h q (List.mem_cons_of_mem m hq))
    simp [jump_arr, jump_list, hv, ht, hrest, Except.map]

/-- Claim C8, confirmed: a sequence is transparent to resolution; for a
sequence of mappings each holding a truthy value at key K, the
single-step path with key K resolves to the concatenation of the
singleton matches of the elements, in sequence order. -/
theorem by_dot_single_step_on_seq_of_mappings (ms : List (List (String × PyVal))) (K : String)
    (h : ∀ m ∈ ms, ∃ v, dictGet m K = some v ∧ v.truthy = true) :
    by_dot_steps (.arr (ms.map PyVal.obj)) [K] =
      .ok (ms.map (fun m => (dictGet m K).getD .null)) := by
  have hj := jump_arr_on_mappings K ms h
  simp [by_dot_steps, List.foldlM, by_dot_branches, jump_list, hj, Except.map]

/-- Witness for by_dot_single_step_on_seq_of_mappings on a two-element
sequence of mappings. -/
theorem by_dot_single_step_on_seq_of_mappings_witness :
    (∀ m ∈ [[("k", PyVal.num 1)], [("k", PyVal.num 2)]],
      ∃ v, dictGet m "k" = some v ∧ v.truthy = true) ∧
    by_dot_steps (.arr ([[("k", PyVal.num 1)], [("k", PyVal.num 2)]].map PyVal.obj)) ["k"] =
      .ok ([[("k", PyVal.num 1)], [("k", PyVal.num 2)]].map
        (fun m => (dictGet m "k").getD .null)) := by
  have h : ∀ m ∈ [[("k", PyVal.num 1)], [("k", PyVal.num 2)]],
      ∃ v, dictGet m "k" = some v ∧ v.truthy = true := by
    intro m hm
    rcases List.mem_cons.mp hm with rfl | hm
    · exact ⟨.num 1, rfl, rfl⟩
    · rcases List.mem_cons.mp hm with rfl | hm
      · exact ⟨.num 2, rfl, rfl⟩
      · cases hm
  exact ⟨h, by_dot_single_step_on_seq_of_mappings [[("k", PyVal.num 1)], [("k", PyVal.num 2)]] "k" h⟩

end Cerl
